import Mathlib

/-!
Verification development for the streaming OpenAI API client
(`src/lmql/runtime/bopenai/openai_api.py`).

Strings are modelled as `List Char`; the helper functions below mirror the
Python string operations used by the source (`str.split`, `str.strip`,
`str.startswith`, `str.endswith`, `in`, `str.lower`, `str.upper`,
`str.replace`) character-for-character.
-/

namespace OpenAIApi

/-- Python whitespace set used by `str.strip()`. -/
def pyWs (c : Char) : Bool :=
  c = ' ' || c = '\t' || c = '\n' || c = '\r' || c = '\x0b' || c = '\x0c'

/-- Python `s.strip()`. -/
def pyStrip (s : List Char) : List Char :=
  ((s.dropWhile pyWs).reverse.dropWhile pyWs).reverse

/-- Python `s.startswith(p)`. -/
def pyStartsWith (p s : List Char) : Bool :=
  List.isPrefixOf p s

/-- Python `s.endswith(p)`. -/
def pyEndsWith (p s : List Char) : Bool :=
  List.isPrefixOf p.reverse s.reverse

/-- Python `needle in s` (substring containment). -/
def pyContains (needle : List Char) : List Char → Bool
  | [] => List.isPrefixOf needle []
  | c :: rest => List.isPrefixOf needle (c :: rest) || pyContains needle rest

/-- Python `s.split(sep)` for a non-empty separator, with fuel for
structural termination; each step consumes at least one character, so
`fuel = s.length + 1` always suffices. -/
def pySplitAux (sep : List Char) : Nat → List Char → List (List Char)
  | _, [] => [[]]
  | 0, s => [s]
  | fuel + 1, c :: rest =>
    if List.isPrefixOf sep (c :: rest) ∧ sep ≠ [] then
      [] :: pySplitAux sep fuel (List.drop (sep.length - 1) rest)
    else
      match pySplitAux sep fuel rest with
      | [] => [[c]]
      | h :: t => (c :: h) :: t

/-- Python `s.split(sep)` for a non-empty separator. -/
def pySplit (sep s : List Char) : List (List Char) :=
  pySplitAux sep (s.length + 1) s

/-- Python `sep.join(xs)`. -/
def pyJoin (sep : List Char) (xs : List (List Char)) : List Char :=
  List.intercalate sep xs

/-- Python `s.lower()` (ASCII payloads only, as in the source). -/
def pyLower (s : List Char) : List Char :=
  s.map Char.toLower

/-- Python `s.upper()`. -/
def pyUpper (s : List Char) : List Char :=
  s.map Char.toUpper

/-- Python `s.replace(".", "_")`, used for environment-variable names. -/
def pyReplaceDotUnderscore (s : List Char) : List Char :=
  s.map (fun c => if c = '.' then '_' else c)

/-- Convenience: the character list of a string literal. -/
def str (s : String) : List Char := s.data

/-! ## Stream decoder: frame extraction

Embeds the frame-extraction loop shared by `chat_api` (lines 249–331) and
`completion_api` (lines 381–431): an append-only text buffer `current_chunk`
is fed arbitrarily-sized chunks; complete `data: ...` frames are split off
on the delimiter `"\ndata: "`, the sentinel `[DONE]` ends the stream, and
after the source closes the trimmed residual buffer is `[DONE]` (normal end)
or is handed to the final error path.
-/

/-- Result of one run of the inner `while "data: " in current_chunk` loop. -/
inductive DrainRes where
  /-- Loop exited with `break` (single possibly-partial fragment) or because
  `"data: "` no longer occurs; carries emitted frames and the new buffer. -/
  | more (frames : List (List Char)) (buffer : List Char)
  /-- A complete frame equalled the sentinel `[DONE]`: the generator returns. -/
  | done (frames : List (List Char)) (buffer : List Char)
  /-- Case where `chunks[0]` after dropping leading empties raised `IndexError`. -/
  | crash (frames : List (List Char)) (buffer : List Char)
deriving DecidableEq, Repr

/-- The inner frame-drain loop (source lines 255–271 / 387–403), with fuel
for termination; `fuel = buffer.length + 1` always suffices since every
iteration shortens the buffer by at least the delimiter length. -/
def drainLoop : Nat → List Char → List (List Char) → DrainRes
  | 0, buf, acc => .more acc buf
  | fuel + 1, buf, acc =>
    if ¬ pyContains (str ("data: ")) buf then .more acc buf
    else
      -- chunks = current_chunk.split("\ndata: ")
      let chunks := pySplit (str ("\ndata: ")) buf
      -- while len(chunks[0]) == 0: chunks = chunks[1:]
      let chunks := chunks.dropWhile (fun c => c.length = 0)
      match chunks with
      | [] => .crash acc buf               -- chunks[0] raises IndexError
      | [_] => .more acc buf               -- last chunk may be incomplete: break
      | c0 :: rest =>
        -- complete_chunk = chunks[0].strip(); current_chunk = "\ndata: ".join(chunks[1:])
        let complete := pyStrip c0
        let buf' := pyJoin (str ("\ndata: ")) rest
        let complete :=
          if pyStartsWith (str ("data: ")) complete then complete.drop 6 else complete
        if (pyStrip complete).length = 0 then
          drainLoop fuel buf' acc          -- continue
        else if complete = str ("[DONE]") then
          .done acc buf'                   -- return
        else
          drainLoop fuel buf' (acc ++ [complete])

/-- Decoder status across incoming chunks. -/
inductive DecStatus where
  /-- Still inside the `async for chunk` loop. -/
  | running
  /-- The `if is_done: break` left the loop; epilogue still runs. -/
  | brokeLoop
  /-- The sentinel frame made the generator return. -/
  | returnedOk
  /-- IndexError inside the drain loop. -/
  | crashed
deriving DecidableEq, Repr

structure DecState where
  buffer : List Char
  frames : List (List Char)
  status : DecStatus
deriving DecidableEq, Repr

def initDecState : DecState := ⟨[], [], .running⟩

/-- Process one incoming network chunk (source lines 250–326 / 382–426):
append to the buffer, compute `is_done` on the trimmed buffer, run the drain
loop, then `if is_done: break`. -/
def feedChunk (st : DecState) (chunk : List Char) : DecState :=
  match st.status with
  | .running =>
    let buf := st.buffer ++ chunk
    -- is_done = current_chunk.strip().endswith("[DONE]")
    let isDone := pyEndsWith (str ("[DONE]")) (pyStrip buf)
    match drainLoop (buf.length + 1) buf [] with
    | .done fs buf' => ⟨buf', st.frames ++ fs, .returnedOk⟩
    | .crash fs buf' => ⟨buf', st.frames ++ fs, .crashed⟩
    | .more fs buf' =>
      if isDone then ⟨buf', st.frames ++ fs, .brokeLoop⟩
      else ⟨buf', st.frames ++ fs, .running⟩
  | _ => st

/-- Terminal outcome of a stream at the frame-extraction level. -/
inductive DecOutcome where
  /-- Ended normally (sentinel seen in the loop, or trimmed residual equals
  `[DONE]` after the source closed). -/
  | ok (frames : List (List Char))
  /-- The residual buffer was not the sentinel: the final error path runs
  (JSON-parse the residual and raise). -/
  | errResidual (frames : List (List Char)) (residual : List Char)
  /-- IndexError inside the drain loop. -/
  | crash (frames : List (List Char))
deriving DecidableEq, Repr

/-- Run the decoder over a whole list of incoming chunks, then the epilogue
(source lines 328–341 / 428–442): close, check the residual for the
sentinel, otherwise enter the final error path. -/
def decode (chunks : List (List Char)) : DecOutcome :=
  let st := chunks.foldl feedChunk initDecState
  match st.status with
  | .returnedOk => .ok st.frames
  | .crashed => .crash st.frames
  | .running | .brokeLoop =>
    if pyStrip st.buffer = str ("[DONE]") then .ok st.frames
    else .errResidual st.frames st.buffer

/-! ## Per-frame processing

Embeds lines 405–424 of `completion_api` (the chat variant at 277–288 shares
the parse and error-classification logic): `json.loads` the complete frame
inside `try/except` — the `except` arm only prints, so after a parse failure
the Python local `data` keeps its value from the previous iteration (or is
unbound on the first frame) — then check for an embedded `error` payload and
classify it, else yield the event.  `json.loads` itself is an external
capability and is passed in as a function. -/

/-- A decoded JSON value (only the shapes the source touches). -/
inductive JVal where
  | jstr (s : List Char)
  | jnum (n : Int)
  | jbool (b : Bool)
  | jnull
  | jarr (elems : List JVal)
  | jobj (fields : List (List Char × JVal))

/-- Python `d[k]` on a JSON object, as an `Option`. -/
def jGet (v : JVal) (k : List Char) : Option JVal :=
  match v with
  | .jobj fields => fields.lookup k
  | _ => none

/-- Whether `v` is a JSON object carrying key `k` (Python `k in d.keys()`);
`none` models the `AttributeError` when `data` is not a dict. -/
def jHasKey (v : JVal) (k : List Char) : Option Bool :=
  match v with
  | .jobj fields => some (fields.any (fun f => f.1 = k))
  | _ => none

/-- Error classification of the two raise sites (lines 417–422 / 282–287). -/
inductive ErrKind where
  /-- Raised as `OpenAIRateLimitError`: `"rate limit" in message.lower()`. -/
  | rateLimit
  /-- generic `OpenAIStreamError`. -/
  | stream
deriving DecidableEq, Repr

/-- Classification `if "rate limit" in message.lower(): ... OpenAIRateLimitError ... else
... OpenAIStreamError ...`. -/
def classifyError (message : List Char) : ErrKind :=
  if pyContains (str ("rate limit")) (pyLower message) then .rateLimit else .stream

/-- Outcome of processing one complete (non-empty, non-sentinel) frame. -/
inductive FrameOut where
  /-- The event reaches `yield data`; `newLast` is the value of the local
  `data` afterwards, `logged` records whether `Failed to decode JSON` was
  printed on the way. -/
  | yielded (d : JVal) (newLast : Option JVal) (logged : Bool)
  /-- An embedded error payload was classified and raised (terminal). -/
  | raised (k : ErrKind) (logged : Bool)
  /-- Interpreter-level crash: `data` unbound (`UnboundLocalError`), not a
  dict, or the error payload lacks a string `message`. -/
  | crashed (logged : Bool)

/-- The error-check-then-yield tail of the per-frame body (lines 417–424),
acting on whatever value the local `data` holds. -/
def frameBody (d : JVal) (logged : Bool) : FrameOut :=
  match jHasKey d (str ("error")) with
  | none => .crashed logged
  | some true =>
    match jGet d (str ("error")) with
    | some e =>
      match jGet e (str ("message")) with
      | some (.jstr m) => .raised (classifyError m) logged
      | _ => .crashed logged
    | none => .crashed logged
  | some false => .yielded d (some d) logged

/-- One iteration of the per-frame body of `completion_api` (lines 412–424):
`parse` models `json.loads`, `lastData` the current binding of the Python
local `data` (`none` before the first successful parse). -/
def frameStep (parse : List Char → Option JVal) (lastData : Option JVal)
    (frame : List Char) : FrameOut :=
  match parse frame with
  | some d => frameBody d false
  | none => -- except: print("Failed to decode JSON:", ...) and fall through
    match lastData with
    | some d => frameBody d true
    | none => .crashed true

/-- A concrete previously-decoded event, for exercising `frameStep`. -/
def prevEvent : JVal := .jobj [(str ("id"), .jnum 1)]

/-- A concrete `json.loads` capability that fails on the frame `oops` and
decodes everything else to `prevEvent`. -/
def demoParse : List Char → Option JVal :=
  fun f => if f = str ("oops") then none else some prevEvent

/-- A concrete decoded rate-limit error payload. -/
def rateLimitEvent : JVal :=
  .jobj [(str ("error"),
    .jobj [(str ("message"), .jstr (str ("Rate limit exceeded")))])]

/-! ## Endpoint resolution

Embeds `get_azure_config` (lines 95–125) and `get_endpoint_and_headers`
(lines 127–154).  `os.environ` and the secret are external capabilities:
`getenv` models `os.environ.get` (`none` = variable absent), `secret`
models `openai_secret`. -/

/-- The `api_config` mapping as consumed by the resolver. -/
structure ApiCfg where
  endpoint : Option (List Char)
  azureApiKey : Option (List Char)

/-- Result of endpoint resolution. -/
inductive EndpointRes where
  | ok (url : List Char) (headers : List (List Char × List Char))
  /-- An `AssertionError` (missing Azure key) or `KeyError` (missing Azure
  endpoint variable): a configuration error. -/
  | configError
deriving DecidableEq, Repr

/-- Computes `model.upper().replace(".", "_")` (lines 101, 117). -/
def modelEnvName (model : List Char) : List Char :=
  pyReplaceDotUnderscore (pyUpper model)

/-- Azure headers (lines 108–111, 121–124). -/
def azureHeaders (key : List Char) : List (List Char × List Char) :=
  [(str ("Content-Type"), str ("application/json")), (str ("api-key"), key)]

/-- Embeds `get_azure_config` (lines 95–125); returns `none` when neither the
endpoint override nor the ambient API type selects Azure. -/
def get_azure_config (getenv : List Char → Option (List Char))
    (model : List Char) (cfg : ApiCfg) : Option EndpointRes :=
  let envName := modelEnvName model
  let envBranch : Option EndpointRes :=
    -- if os.environ.get("OPENAI_API_TYPE", 'openai') == 'azure'
    if (getenv (str ("OPENAI_API_TYPE"))).getD (str ("openai")) = str ("azure") then
      match getenv (str ("AZURE_OPENAI_") ++ envName ++ str ("_ENDPOINT")) with
      | none => some .configError      -- KeyError
      | some ep =>
        match getenv (str ("AZURE_OPENAI_") ++ envName ++ str ("_KEY")) with
        | none => some .configError    -- assert fails
        | some key => some (.ok ep (azureHeaders key))
    else none
  match cfg.endpoint with
  | some e =>
    if pyStartsWith (str ("azure:")) e then
      let e' := str ("https:") ++ e.drop 6
      match cfg.azureApiKey with
      | some key => some (.ok e' (azureHeaders key))
      | none =>
        match getenv (str ("AZURE_OPENAI_") ++ envName ++ str ("_KEY")) with
        | none => some .configError    -- assert fails
        | some key => some (.ok e' (azureHeaders key))
    else envBranch
  | none => envBranch

/-- The routing condition used both by `complete` (line 57) and by
`get_endpoint_and_headers` (line 147):
`model.startswith("gpt-3.5-turbo") or "gpt-4" in model`. -/
def isChatModel (model : List Char) : Bool :=
  pyStartsWith (str ("gpt-3.5-turbo")) model || pyContains (str ("gpt-4")) model

def chatCompletionsURL : List Char := str ("https://api.openai.com/v1/chat/completions")

def completionsURL : List Char := str ("https://api.openai.com/v1/completions")

/-- Embeds `get_endpoint_and_headers` (lines 127–154). -/
def get_endpoint_and_headers (getenv : List Char → Option (List Char))
    (secret : List Char) (model : List Char) (cfg : ApiCfg) : EndpointRes :=
  match get_azure_config getenv model cfg with
  | some r => r
  | none =>
    match cfg.endpoint with
    | some e =>
      -- if not endpoint.endswith("http"): prepend the scheme
      let e' := if ¬ pyEndsWith (str ("http")) e then str ("http://") ++ e else e
      .ok (e' ++ str ("/completions")) [(str ("Content-Type"), str ("application/json"))]
    | none =>
      .ok (if isChatModel model then chatCompletionsURL else completionsURL)
        [(str ("Authorization"), str ("Bearer ") ++ secret),
         (str ("Content-Type"), str ("application/json"))]

/-- The empty environment: no variables set. -/
def noEnv : List Char → Option (List Char) := fun _ => none

/-! ## Capacity admission (`Capacity` / `CapacitySemaphore`, lines 20–43)

`CapacitySemaphore.__aenter__` polls `Capacity.reserved` in a
`while True` loop, sleeping 0.5s whenever `reserved >= total` and otherwise
incrementing `reserved` by the requested units and returning, with no
suspension point between the check and the increment.  Interference from
other streams is modelled by the list of values the loop observes on its
successive reads of `Capacity.reserved`. -/

/-- Runs `__aenter__` over the successive observations of `Capacity.reserved`:
returns `(sleeps, observed, reservedAfter)` on admission, `none` if every
observation kept the loop polling. -/
def acquireLoop (total units : Nat) : List Nat → Option (Nat × Nat × Nat)
  | [] => none
  | r :: rest =>
    if total ≤ r then
      (acquireLoop total units rest).map (fun x => (x.1 + 1, x.2))
    else
      some (0, r, r + units)

/-- The polling interval of `__aenter__` in seconds (`asyncio.sleep(0.5)`). -/
def capacityPollSeconds : ℚ := 1 / 2

/-- A capacity-counter event: stream `sid` acquires or releases `units`. -/
structure CEvent where
  sid : Nat
  units : Nat
  isRelease : Bool
deriving DecidableEq, Repr

/-- Well-bracketing checker: scans a trace keeping the list of open
`(stream, units)` reservations; rejects a release with no matching open
acquire and a second acquire by the same stream.  A trace produced by
interleaving per-stream `acquire; release` brackets passes with final
state `[]`. -/
def wbRun (opened : List (Nat × Nat)) : List CEvent → Option (List (Nat × Nat))
  | [] => some opened
  | e :: rest =>
    if e.isRelease then
      if (e.sid, e.units) ∈ opened then wbRun (opened.erase (e.sid, e.units)) rest
      else none
    else
      if opened.any (fun p => p.1 = e.sid) then none
      else wbRun ((e.sid, e.units) :: opened) rest

/-- Effect of one event on `Capacity.reserved`. -/
def capStep (r : Int) (e : CEvent) : Int :=
  if e.isRelease then r - e.units else r + e.units

/-- The successive values of `Capacity.reserved` along a trace. -/
def reservedTrace (r : Int) : List CEvent → List Int
  | [] => [r]
  | e :: rest => r :: reservedTrace (capStep r e) rest

/-- Final value of `Capacity.reserved` after a trace. -/
def reservedFinal (r : Int) (tr : List CEvent) : Int :=
  tr.foldl capStep r

/-- Total units held by the open reservations. -/
def sumUnits (l : List (Nat × Nat)) : Nat :=
  (l.map Prod.snd).sum

/-! ## Control-flow plans of the two generators

Action skeletons of `chat_api` (lines 156–342) and `completion_api`
(lines 343–442), recording the externally visible resource actions on each
control path: the synthetic echo event; entering `CapacitySemaphore`
(acquire of `num_prompts * max_tokens` units) whose `__aexit__` releases the
same units on every exit from the `async with` body (success, error and
cancellation alike); and the `session.post` network request. -/

inductive Act where
  | yieldEcho
  | acquire (u : Nat)
  | httpPost
  | release (u : Nat)
deriving DecidableEq, Repr

/-- Plan of `chat_api`: optional echo event (lines 169–185), then `return` before
any capacity or network action when `max_tokens == 0` (lines 187–188), else
the capacity bracket (line 217) around the posted request (line 224). -/
def chat_api_plan (numPrompts maxTokens : Nat) (echo : Bool) : List Act :=
  (if echo then [.yieldEcho] else []) ++
  (if maxTokens = 0 then []
   else [.acquire (numPrompts * maxTokens), .httpPost,
         .release (numPrompts * maxTokens)])

/-- Plan of `completion_api`: no echo event and no `max_tokens == 0` early return;
the capacity bracket (line 351) around the posted request (line 358). -/
def completion_api_plan (numPrompts maxTokens : Nat) : List Act :=
  [.acquire (numPrompts * maxTokens), .httpPost,
   .release (numPrompts * maxTokens)]

/-- The capacity actions of a plan, as `(units, isRelease)` pairs. -/
def capActs (plan : List Act) : List (Nat × Bool) :=
  plan.filterMap (fun a => match a with
    | .acquire u => some (u, false)
    | .release u => some (u, true)
    | _ => none)

/-! ## Chat prompt segmentation (`tagged_segments`, lines 81–92)

`re.finditer(r"<lmql:(.*?)\/>", s)` scans for the leftmost match of
`<lmql:` followed by a lazily-matched tag (where `.` matches any character
except a newline) ending at the earliest `/>`; iteration resumes after each
match.  `tagged_segments` accumulates `(tag, text)` segments where each
tag applies to the text following its marker, text before the first marker
gets tag `None` and is only emitted when non-empty, and the final segment
is emitted unconditionally. -/

/-- The lazy part `(.*?)\/>` of the marker pattern: consume non-newline
characters up to the earliest `/>`; returns the group and the remainder
after the match. -/
def scanTag : List Char → Option (List Char × List Char)
  | [] => none
  | c :: rest =>
    if c = '/' ∧ rest.head? = some '>' then some ([], rest.tail)
    else if c = '\n' then none
    else (scanTag rest).map (fun p => (c :: p.1, p.2))

/-- Match `<lmql:(.*?)\/>` at the current position. -/
def matchMarkerHere (s : List Char) : Option (List Char × List Char) :=
  if pyStartsWith (str ("<lmql:")) s then scanTag (s.drop 6) else none

/-- Leftmost marker match in `s`: `(before, tag, after)`. -/
def findMarker : List Char → Option (List Char × List Char × List Char)
  | [] => none
  | c :: rest =>
    match matchMarkerHere (c :: rest) with
    | some (tag, after) => some ([], tag, after)
    | none => (findMarker rest).map (fun p => (c :: p.1, p.2.1, p.2.2))

theorem scanTag_length : ∀ s t r, scanTag s = some (t, r) →
    s.length = t.length + 2 + r.length := by
  intro s
  induction s with
  | nil => intro t r h; simp [scanTag] at h
  | cons c rest ih =>
    intro t r h
    simp only [scanTag] at h
    split at h
    · rename_i hc
      obtain ⟨hslash, hhead⟩ := hc
      simp only [Option.some.injEq, Prod.mk.injEq] at h
      obtain ⟨ht, hr⟩ := h
      subst ht; subst hr
      cases rest with
      | nil => simp at hhead
      | cons b bs => simp; omega
    · split at h
      · exact absurd h (by simp)
      · cases hs : scanTag rest with
        | none => rw [hs] at h; exact absurd h (by simp)
        | some p =>
          rw [hs] at h
          simp only [Option.map_some', Option.some.injEq, Prod.mk.injEq] at h
          obtain ⟨ht, hr⟩ := h
          subst ht; subst hr
          have := ih p.1 p.2 (by rw [hs])
          simp only [List.length_cons]
          omega

theorem matchMarkerHere_length : ∀ s t r, matchMarkerHere s = some (t, r) →
    s.length = t.length + 8 + r.length := by
  intro s t r h
  simp only [matchMarkerHere] at h
  split at h
  · rename_i hp
    have hpre : (str ("<lmql:")) <+: s := by
      simpa [pyStartsWith, List.isPrefixOf_iff_prefix] using hp
    have hlen : 6 ≤ s.length := by
      have := hpre.length_le
      simpa [str] using this
    have hdrop := scanTag_length _ _ _ h
    have : (s.drop 6).length = s.length - 6 := by simp
    omega
  · simp at h

theorem findMarker_length : ∀ s pre t r, findMarker s = some (pre, t, r) →
    s.length = pre.length + t.length + 8 + r.length := by
  intro s
  induction s with
  | nil => intro pre t r h; simp [findMarker] at h
  | cons c rest ih =>
    intro pre t r h
    simp only [findMarker] at h
    cases hm : matchMarkerHere (c :: rest) with
    | some p =>
      rw [hm] at h
      simp only [Option.some.injEq, Prod.mk.injEq] at h
      obtain ⟨h1, h2, h3⟩ := h
      subst h1; subst h2; subst h3
      have := matchMarkerHere_length _ _ _ hm
      simpa using this
    | none =>
      rw [hm] at h
      cases hf : findMarker rest with
      | none => rw [hf] at h; exact absurd h (by simp)
      | some p =>
        rw [hf] at h
        simp only [Option.map_some', Option.some.injEq, Prod.mk.injEq] at h
        obtain ⟨h1, h2, h3⟩ := h
        subst h1; subst h2; subst h3
        have := ih p.1 p.2.1 p.2.2 (by rw [hf])
        simp only [List.length_cons]
        omega

/-- A `(tag, text)` segment. -/
structure Seg where
  tag : Option (List Char)
  text : List Char
deriving DecidableEq, Repr

/-- The `for m in re.finditer(...)` loop of `tagged_segments`, carrying the
running `current_tag`: the text before the leftmost match joins the output
only when non-empty (`m.start() - offset > 0`), the final segment always
(line 91). -/
def tagged_segments_from (ct : Option (List Char)) (s : List Char) : List Seg :=
  match h : findMarker s with
  | none => [⟨ct, s⟩]
  | some (pre, tag, rest) =>
    (if 0 < pre.length then [⟨ct, pre⟩] else []) ++
      tagged_segments_from (some tag) rest
termination_by s.length
decreasing_by
  have := findMarker_length _ _ _ _ h
  omega

/-- Embeds `tagged_segments(s)` (lines 81–92). -/
def tagged_segments (s : List Char) : List Seg :=
  tagged_segments_from none s

/-- Chat message roles. -/
inductive Role where
  | system
  | assistant
  | user
deriving DecidableEq, Repr

/-- The tag → role table of `chat_api` (lines 194–205); the second component
records whether the unrecognized-tag warning is printed (role stays
`user`). -/
def roleOf : Option (List Char) → Role × Bool
  | some t =>
    if t = str ("system") then (.system, false)
    else if t = str ("assistant") then (.assistant, false)
    else if t = str ("user") then (.user, false)
    else (.user, true)
  | none => (.user, false)

structure ChatMsg where
  role : Role
  content : List Char
deriving DecidableEq, Repr

/-- The `messages` list built by `chat_api` (lines 192–210): one message is
appended for *every* segment returned by `tagged_segments`. -/
def chat_messages (prompt : List Char) : List ChatMsg :=
  (tagged_segments prompt).map (fun s => ⟨(roleOf s.tag).1, s.text⟩)

/-- Modelled from the spec sentence of C7 ("emits one ChatMessage per
non-empty segment"): like `chat_messages` but with empty-text segments
filtered out, for comparison with the source behaviour. -/
def specChatMessages (prompt : List Char) : List ChatMsg :=
  ((tagged_segments prompt).filter (fun s => ¬ s.text = [])).map
    (fun s => ⟨(roleOf s.tag).1, s.text⟩)

/-! ## Capacity-counter safety -/

theorem sumUnits_cons (p : Nat × Nat) (l : List (Nat × Nat)) :
    sumUnits (p :: l) = p.2 + sumUnits l := by
  simp [sumUnits]

theorem sumUnits_erase (l : List (Nat × Nat)) (p : Nat × Nat) (hp : p ∈ l) :
    sumUnits l = p.2 + sumUnits (l.erase p) := by
  induction l with
  | nil => simp at hp
  | cons q rest ih =>
    by_cases hq : q = p
    · subst hq
      rw [List.erase_cons_head, sumUnits_cons]
    · have hp' : p ∈ rest := by
        rcases List.mem_cons.mp hp with h | h
        · exact absurd h.symm hq
        · exact h
      rw [List.erase_cons_tail (by simpa using fun h => hq h),
        sumUnits_cons, sumUnits_cons, ih hp']
      omega

theorem reservedFinal_cons (r : Int) (e : CEvent) (tr : List CEvent) :
    reservedFinal r (e :: tr) = reservedFinal (capStep r e) tr := rfl

/-- Main safety invariant: along any well-bracketed trace the reserved
counter equals the sum of the open reservations, hence never negative, and
ends at the sum of the final open reservations. -/
theorem wb_reserved (tr : List CEvent) :
    ∀ (opened fin : List (Nat × Nat)), wbRun opened tr = some fin →
      (∀ v ∈ reservedTrace (sumUnits opened) tr, 0 ≤ v) ∧
      reservedFinal (sumUnits opened) tr = sumUnits fin := by
  induction tr with
  | nil =>
    intro opened fin h
    simp only [wbRun, Option.some.injEq] at h
    subst h
    simp [reservedTrace, reservedFinal]
  | cons e rest ih =>
    intro opened fin h
    simp only [wbRun] at h
    split at h
    · rename_i hrel
      split at h
      · rename_i hmem
        have hsum := sumUnits_erase opened (e.sid, e.units) hmem
        have hstep : capStep (sumUnits opened) e
            = sumUnits (opened.erase (e.sid, e.units)) := by
          simp only [capStep, if_pos hrel]
          omega
        have hrec := ih (opened.erase (e.sid, e.units)) fin h
        constructor
        · intro v hv
          simp only [reservedTrace, List.mem_cons] at hv
          rcases hv with rfl | hv
          · positivity
          · exact hrec.1 v (by rwa [hstep] at hv)
        · rw [reservedFinal_cons, hstep]
          exact hrec.2
      · exact absurd h (by simp)
    · rename_i hrel
      split at h
      · exact absurd h (by simp)
      · have hstep : capStep (sumUnits opened) e
            = sumUnits ((e.sid, e.units) :: opened) := by
          simp only [capStep, if_neg hrel, sumUnits_cons]
          omega
        have hrec := ih ((e.sid, e.units) :: opened) fin h
        constructor
        · intro v hv
          simp only [reservedTrace, List.mem_cons] at hv
          rcases hv with rfl | hv
          · positivity
          · exact hrec.1 v (by rwa [hstep] at hv)
        · rw [reservedFinal_cons, hstep]
          exact hrec.2


/-! ## Segmentation of well-formed tagged prompts -/

/-- A marker as written in a prompt. -/
def marker (t : List Char) : List Char :=
  str ("<lmql:") ++ t ++ str ("/>")

/-- A prompt assembled from leading text and `(tag, following text)` pairs. -/
def buildPrompt : List Char → List (List Char × List Char) → List Char
  | x0, [] => x0
  | x0, (t, x) :: ps => x0 ++ (marker t ++ buildPrompt x ps)

/-- The segments the spec describes for an assembled prompt: each tag takes
the text after its marker; a segment before another marker is kept only
when non-empty; the final segment is always kept. -/
def expectedSegs (ct : Option (List Char)) (x0 : List Char) :
    List (List Char × List Char) → List Seg
  | [] => [⟨ct, x0⟩]
  | (t, x) :: ps =>
    (if 0 < x0.length then [⟨ct, x0⟩] else []) ++ expectedSegs (some t) x ps

/-- Tags made of alphanumeric characters only (no `/`, `>` or newline). -/
def okTag (t : List Char) : Prop := ∀ c ∈ t, c.isAlphanum

instance (t : List Char) : Decidable (okTag t) :=
  decidable_of_iff (t.all Char.isAlphanum = true)
    (by simp [okTag, List.all_eq_true])

/-- All tags of a pair list are alphanumeric. -/
def okTags (ps : List (List Char × List Char)) : Prop := ∀ p ∈ ps, okTag p.1

instance (ps : List (List Char × List Char)) : Decidable (okTags ps) :=
  decidable_of_iff (ps.all (fun p => p.1.all Char.isAlphanum) = true)
    (by simp [okTags, okTag, List.all_eq_true])

/-- All texts of a pair list are free of the marker-opening character. -/
def okTexts (ps : List (List Char × List Char)) : Prop := ∀ p ∈ ps, '<' ∉ p.2

instance (ps : List (List Char × List Char)) : Decidable (okTexts ps) :=
  decidable_of_iff (ps.all (fun p => decide ('<' ∉ p.2)) = true)
    (by simp [okTexts, List.all_eq_true])

theorem scanTag_on_tag (t : List Char) (r : List Char) (ht : okTag t) :
    scanTag (t ++ (str ("/>") ++ r)) = some (t, r) := by
  induction t with
  | nil =>
    show scanTag ('/' :: ('>' :: r)) = some ([], r)
    simp [scanTag]
  | cons c t' ih =>
    have hc : c.isAlphanum := ht c (List.mem_cons_self c t')
    have hslash : c ≠ '/' := by
      intro he; subst he; exact absurd hc (by decide)
    have hnl : c ≠ '\n' := by
      intro he; subst he; exact absurd hc (by decide)
    have ih' := ih (fun a ha => ht a (List.mem_cons_of_mem c ha))
    show scanTag (c :: (t' ++ (str ("/>") ++ r))) = _
    simp only [scanTag]
    rw [if_neg (fun hand => hslash hand.1), if_neg hnl, ih']
    rfl

theorem matchMarkerHere_on_marker (t r : List Char) (ht : okTag t) :
    matchMarkerHere (marker t ++ r) = some (t, r) := by
  have hshape : marker t ++ r = str ("<lmql:") ++ (t ++ (str ("/>") ++ r)) := by
    simp [marker, List.append_assoc]
  rw [hshape]
  unfold matchMarkerHere
  rw [if_pos (by simp [pyStartsWith, List.isPrefixOf_iff_prefix])]
  have h6 : (6 : Nat) = (str ("<lmql:")).length := rfl
  rw [h6, List.drop_left]
  exact scanTag_on_tag t r ht

theorem matchMarkerHere_no_marker (c : Char) (s : List Char) (hc : c ≠ '<') :
    matchMarkerHere (c :: s) = none := by
  unfold matchMarkerHere
  rw [if_neg]
  intro hp
  have hpre := List.isPrefixOf_iff_prefix.mp hp
  rcases hpre with ⟨tail, htail⟩
  have : '<' = c := by
    have h1 : str ("<lmql:") ++ tail = c :: s := htail
    have h2 : '<' :: (str ("lmql:") ++ tail) = c :: s := h1
    exact (List.cons.injEq .. ▸ h2).1
  exact hc this.symm

theorem findMarker_skip_text (x : List Char) :
    ∀ r, '<' ∉ x →
      findMarker (x ++ r)
        = (findMarker r).map (fun p => (x ++ p.1, p.2.1, p.2.2)) := by
  induction x with
  | nil =>
    intro r _
    cases h : findMarker r with
    | none => rw [List.nil_append, h]; rfl
    | some p => rw [List.nil_append, h]; rfl
  | cons c x' ih =>
    intro r hx
    simp only [List.mem_cons, not_or] at hx
    obtain ⟨hne, hx'⟩ := hx
    have hnm : matchMarkerHere (c :: (x' ++ r)) = none :=
      matchMarkerHere_no_marker c _ (fun h => hne (h ▸ rfl))
    show findMarker (c :: (x' ++ r)) = _
    simp only [findMarker, hnm]
    rw [ih r hx']
    cases h : findMarker r with
    | none => rfl
    | some p => rfl

theorem findMarker_at_marker (t r : List Char) (ht : okTag t) :
    findMarker (marker t ++ r) = some ([], t, r) := by
  have hm := matchMarkerHere_on_marker t r ht
  have hshape : marker t ++ r
      = '<' :: (str ("lmql:") ++ (t ++ (str ("/>") ++ r))) := by
    simp [marker, str, List.append_assoc]
  rw [hshape] at hm ⊢
  simp only [findMarker, hm]

theorem findMarker_none_of_no_lt (x : List Char) (hx : '<' ∉ x) :
    findMarker x = none := by
  have := findMarker_skip_text x [] hx
  simpa [findMarker] using this

/-- Unfolding lemma: no marker in the remaining text. -/
theorem tagged_segments_from_of_none (ct : Option (List Char)) (s : List Char)
    (h : findMarker s = none) : tagged_segments_from ct s = [⟨ct, s⟩] := by
  rw [tagged_segments_from.eq_def]
  split
  · rfl
  · rename_i pre tag rest h'
    rw [h] at h'
    exact absurd h' (by simp)

/-- Unfolding lemma: leftmost marker found. -/
theorem tagged_segments_from_of_some (ct : Option (List Char)) (s : List Char)
    (pre tag rest : List Char) (h : findMarker s = some (pre, tag, rest)) :
    tagged_segments_from ct s
      = (if 0 < pre.length then [⟨ct, pre⟩] else [])
          ++ tagged_segments_from (some tag) rest := by
  rw [tagged_segments_from.eq_def]
  split
  · rename_i h'
    rw [h] at h'
    exact absurd h' (by simp)
  · rename_i pre' tag' rest' h'
    rw [h] at h'
    simp only [Option.some.injEq, Prod.mk.injEq] at h'
    obtain ⟨h1, h2, h3⟩ := h'
    subst h1; subst h2; subst h3
    rfl

/-- The regex scan of `tagged_segments` recovers the intended structure of
any well-formed assembled prompt. -/
theorem tagged_segments_from_build (ps : List (List Char × List Char)) :
    ∀ (ct : Option (List Char)) (x0 : List Char),
      '<' ∉ x0 → (∀ p ∈ ps, okTag p.1) → (∀ p ∈ ps, '<' ∉ p.2) →
      tagged_segments_from ct (buildPrompt x0 ps) = expectedSegs ct x0 ps := by
  induction ps with
  | nil =>
    intro ct x0 hx0 _ _
    exact tagged_segments_from_of_none ct x0 (findMarker_none_of_no_lt x0 hx0)
  | cons p ps' ih =>
    intro ct x0 hx0 hts hxs
    obtain ⟨t, x⟩ := p
    have hfm : findMarker (buildPrompt x0 ((t, x) :: ps'))
        = some (x0, t, buildPrompt x ps') := by
      show findMarker (x0 ++ (marker t ++ buildPrompt x ps')) = _
      rw [findMarker_skip_text x0 _ hx0,
        findMarker_at_marker t _ (hts (t, x) (List.mem_cons_self ..))]
      simp
    rw [tagged_segments_from_of_some _ _ _ _ _ hfm,
      ih (some t) x (hxs (t, x) (List.mem_cons_self ..))
        (fun q hq => hts q (List.mem_cons_of_mem _ hq))
        (fun q hq => hxs q (List.mem_cons_of_mem _ hq))]
    rfl

/-! ## Claim theorems -/

/-- C1: the same logical event-stream byte sequence, delivered once in one
chunk and once split in two, yields different decoded frame sequences: the
`is_done` flag is computed on a partial buffer whose trimmed form happens to
end in `[DONE]` inside a frame payload, so the decoder abandons the stream.
This falsifies chunk-boundary independence on the code as written. -/
theorem decode_chunk_boundary_dependent :
    str ("data: \"x[DONE]") ++ str ("\"\n\ndata: [DONE]\n\n")
        = str ("data: \"x[DONE]\"\n\ndata: [DONE]\n\n") ∧
    decode [str ("data: \"x[DONE]\"\n\ndata: [DONE]\n\n")]
        = .ok [str ("\"x[DONE]\"")] ∧
    decode [str ("data: \"x[DONE]"), str ("\"\n\ndata: [DONE]\n\n")]
        = .errResidual [] (str ("data: \"x[DONE]")) := by
  refine ⟨by decide, by decide, by decide⟩

/-- C2: each generator's capacity actions form exactly one
acquire-then-release bracket of `num_prompts * max_tokens` units (none at
all on the chat early-return path), and along every well-bracketed
interleaving of such per-stream brackets the reserved counter never goes
negative and returns to zero once every stream has completed. -/
theorem capacity_bracket_and_counter (numPrompts maxTokens : Nat)
    (echo : Bool) (tr : List CEvent) (h : wbRun [] tr = some []) :
    capActs (chat_api_plan numPrompts maxTokens echo)
        = (if maxTokens = 0 then []
           else [(numPrompts * maxTokens, false), (numPrompts * maxTokens, true)]) ∧
    capActs (completion_api_plan numPrompts maxTokens)
        = [(numPrompts * maxTokens, false), (numPrompts * maxTokens, true)] ∧
    (∀ v ∈ reservedTrace 0 tr, 0 ≤ v) ∧
    reservedFinal 0 tr = 0 := by
  have hres := wb_reserved tr [] [] h
  refine ⟨?_, ?_, ?_, ?_⟩
  · by_cases hm : maxTokens = 0 <;> cases echo <;>
      simp [chat_api_plan, capActs, hm]
  · simp [completion_api_plan, capActs]
  · have h1 := hres.1
    simpa [sumUnits] using h1
  · have h2 := hres.2
    simpa [sumUnits] using h2

/-- Witness for C2: a concrete interleaving of two stream brackets. -/
theorem capacity_bracket_and_counter_witness :
    wbRun [] [⟨0, 6, false⟩, ⟨1, 3, false⟩, ⟨0, 6, true⟩, ⟨1, 3, true⟩]
        = some [] ∧
    (0 : Int) ≤ 9 ∧
    reservedFinal 0 [⟨0, 6, false⟩, ⟨1, 3, false⟩, ⟨0, 6, true⟩, ⟨1, 3, true⟩]
        = 0 :=
  ⟨by decide,
    (capacity_bracket_and_counter 1 5 true
      [⟨0, 6, false⟩, ⟨1, 3, false⟩, ⟨0, 6, true⟩, ⟨1, 3, true⟩]
      (by decide)).2.2.1 9 (by decide),
    (capacity_bracket_and_counter 1 5 true
      [⟨0, 6, false⟩, ⟨1, 3, false⟩, ⟨0, 6, true⟩, ⟨1, 3, true⟩]
      (by decide)).2.2.2⟩

/-- C3: a complete non-sentinel frame that fails to parse is *not* skipped:
the handler logs and then falls through to `data.keys()`, which crashes with
`UnboundLocalError` if the bad frame is the first one, and otherwise
processes — and re-yields — the previous frame's event. -/
theorem malformed_frame_falls_through :
    frameStep demoParse none (str ("oops")) = .crashed true ∧
    frameStep demoParse (some prevEvent) (str ("oops"))
        = .yielded prevEvent (some prevEvent) true := by
  exact ⟨rfl, rfl⟩

/-- C4: `CapacitySemaphore.__aenter__` admits only after an observation with
`reserved < total`, and then the new reserved value is exactly the observed
value plus the requested units, after one `asyncio.sleep(0.5)` per blocked
check; if every observation satisfies `reserved ≥ total` it keeps polling
and never fails; an admission may leave `reserved` above `total`. -/
theorem aenter_admission (total units : Nat) (obs : List Nat) :
    (∀ sleeps r r', acquireLoop total units obs = some (sleeps, r, r') →
        r < total ∧ r' = r + units
          ∧ sleeps = (obs.takeWhile (fun v => decide (total ≤ v))).length) ∧
    ((∀ v ∈ obs, total ≤ v) → acquireLoop total units obs = none) ∧
    (acquireLoop 10 5 [9] = some (0, 9, 14) ∧ 10 < 14) := by
  refine ⟨?_, ?_, by decide, by decide⟩
  · induction obs with
    | nil => intro sleeps r r' h; exact absurd h (by simp [acquireLoop])
    | cons v rest ih =>
      intro sleeps r r' h
      simp only [acquireLoop] at h
      split at h
      · rename_i hv
        cases hrec : acquireLoop total units rest with
        | none => rw [hrec] at h; exact absurd h (by simp)
        | some x =>
          rw [hrec] at h
          simp only [Option.map_some', Option.some.injEq] at h
          have hx : acquireLoop total units rest = some (x.1, x.2.1, x.2.2) := by
            rw [hrec]
          have hrest := ih x.1 x.2.1 x.2.2 hx
          have h1 : x.1 + 1 = sleeps := congrArg Prod.fst h
          have h2 : x.2.1 = r := congrArg (fun y => y.2.1) h
          have h3 : x.2.2 = r' := congrArg (fun y => y.2.2) h
          subst h1; subst h2; subst h3
          refine ⟨hrest.1, hrest.2.1, ?_⟩
          rw [List.takeWhile_cons, if_pos (by simpa using hv)]
          simp [hrest.2.2]
      · rename_i hv
        simp only [Option.some.injEq] at h
        have h1 : (0 : Nat) = sleeps := congrArg Prod.fst h
        have h2 : v = r := congrArg (fun y => y.2.1) h
        have h3 : v + units = r' := congrArg (fun y => y.2.2) h
        subst h1; subst h2; subst h3
        refine ⟨by omega, rfl, ?_⟩
        rw [List.takeWhile_cons, if_neg (by simpa using hv)]
        rfl
  · induction obs with
    | nil => intro _; rfl
    | cons v rest ih =>
      intro hall
      have hv := hall v (List.mem_cons_self ..)
      simp only [acquireLoop, if_pos hv]
      rw [ih (fun u hu => hall u (List.mem_cons_of_mem _ hu))]
      rfl

/-- Witness for C4: one blocked poll, then admission overshooting `total`. -/
theorem aenter_admission_witness :
    acquireLoop 10 5 [12, 9] = some (1, 9, 14) ∧ 9 < 10 ∧ 14 = 9 + 5 ∧
    (1 : Nat) = ([12, 9].takeWhile (fun v => decide (10 ≤ v))).length := by
  have h := (aenter_admission 10 5 [12, 9]).1 1 9 14 (by decide)
  exact ⟨by decide, h.1, h.2.1, h.2.2⟩

/-- C6: a frame whose payload is an object with an embedded error message
is raised (terminal), as `OpenAIRateLimitError` exactly when the
lower-cased message contains `rate limit`, else as `OpenAIStreamError`;
at the claim's two examples the classification is rate-limit and generic
respectively. -/
theorem error_frame_classified (parse : List Char → Option JVal)
    (lastData : Option JVal) (frame : List Char) (d e : JVal) (m : List Char)
    (hp : parse frame = some d)
    (hk : jHasKey d (str ("error")) = some true)
    (hg : jGet d (str ("error")) = some e)
    (hm : jGet e (str ("message")) = some (.jstr m)) :
    frameStep parse lastData frame = .raised (classifyError m) false ∧
    (classifyError m = .rateLimit
        ↔ pyContains (str ("rate limit")) (pyLower m) = true) ∧
    classifyError (str ("Rate limit exceeded")) = .rateLimit ∧
    classifyError (str ("Invalid request")) = .stream := by
  refine ⟨?_, ?_, by decide, by decide⟩
  · simp only [frameStep, hp, frameBody, hk, hg, hm]
  · unfold classifyError
    by_cases hc : pyContains (str ("rate limit")) (pyLower m) = true
    · simp [hc]
    · simp [hc]

/-- Witness for C6 at a concrete rate-limit error frame. -/
theorem error_frame_classified_witness :
    frameStep (fun _ => some rateLimitEvent) none (str ("x"))
        = .raised .rateLimit false := by
  have h := error_frame_classified (fun _ => some rateLimitEvent) none
    (str ("x")) rateLimitEvent
    (.jobj [(str ("message"), .jstr (str ("Rate limit exceeded")))])
    (str ("Rate limit exceeded")) rfl rfl rfl rfl
  rw [h.1, h.2.2.1]

/-- C7 counterexample: a prompt that is a lone marker produces a message
with empty content, while the spec's "one message per non-empty segment"
reading predicts no message at all. -/
theorem empty_final_segment_yields_message :
    chat_messages (str ("<lmql:system/>")) = [⟨.system, []⟩] ∧
    specChatMessages (str ("<lmql:system/>")) = [] ∧
    ¬ chat_messages (str ("<lmql:system/>"))
        = specChatMessages (str ("<lmql:system/>")) := by
  have h1 : findMarker (str ("<lmql:system/>"))
      = some ([], str ("system"), []) := by decide
  have h2 : tagged_segments (str ("<lmql:system/>"))
      = [⟨some (str ("system")), []⟩] := by
    unfold tagged_segments
    rw [tagged_segments_from_of_some _ _ _ _ _ h1,
      tagged_segments_from_of_none _ _ (by decide)]
    rfl
  have hm : chat_messages (str ("<lmql:system/>")) = [⟨.system, []⟩] := by
    unfold chat_messages
    rw [h2]
    rfl
  have hs : specChatMessages (str ("<lmql:system/>")) = [] := by
    unfold specChatMessages
    rw [h2]
    rfl
  refine ⟨hm, hs, ?_⟩
  rw [hm, hs]
  simp

/-- C7 amended: on any prompt assembled from marker-free texts and
alphanumeric tags, the regex split assigns each tag to the following text
(text before the first marker keeps tag `None` and is dropped when empty,
the final segment is kept even when empty), roles are mapped by the
`system`/`assistant`/`user`/`None`/other table (other warns and maps to
`user`), and one message is emitted per segment in order; marker-free
prompts give a single `user` message, and the claim's concrete example
splits as stated. -/
theorem chat_prompt_segmentation (x0 : List Char)
    (ps : List (List Char × List Char)) (hx0 : '<' ∉ x0)
    (hts : okTags ps) (hxs : okTexts ps) :
    chat_messages (buildPrompt x0 ps)
        = (expectedSegs none x0 ps).map (fun g => ⟨(roleOf g.tag).1, g.text⟩) ∧
    (∀ s, findMarker s = none → chat_messages s = [⟨.user, s⟩]) ∧
    chat_messages (str ("<lmql:system/>A<lmql:user/>B"))
        = [⟨.system, str ("A")⟩, ⟨.user, str ("B")⟩] ∧
    roleOf (some (str ("system"))) = (.system, false) ∧
    roleOf (some (str ("assistant"))) = (.assistant, false) ∧
    roleOf (some (str ("user"))) = (.user, false) ∧
    roleOf none = (.user, false) ∧
    roleOf (some (str ("zebra"))) = (.user, true) := by
  refine ⟨?_, ?_, ?_, by decide, by decide, by decide, by decide, by decide⟩
  · unfold chat_messages tagged_segments
    rw [tagged_segments_from_build ps none x0 hx0 hts hxs]
  · intro s hs
    unfold chat_messages tagged_segments
    rw [tagged_segments_from_of_none _ _ hs]
    rfl
  · have hb : str ("<lmql:system/>A<lmql:user/>B")
        = buildPrompt []
            [(str ("system"), str ("A")), (str ("user"), str ("B"))] := by
      decide
    have h1 : okTags [(str ("system"), str ("A")), (str ("user"), str ("B"))] := by
      decide
    have h2 : okTexts [(str ("system"), str ("A")), (str ("user"), str ("B"))] := by
      decide
    rw [hb]
    unfold chat_messages tagged_segments
    rw [tagged_segments_from_build _ none [] (by decide) h1 h2]
    rfl

/-- Witness for C7 at a concrete assembled prompt. -/
theorem chat_prompt_segmentation_witness :
    ('<' ∉ str ("pre")) ∧
    chat_messages (buildPrompt (str ("pre")) [(str ("system"), str ("A"))])
        = [⟨.user, str ("pre")⟩, ⟨.system, str ("A")⟩] := by
  have h1 : okTags [(str ("system"), str ("A"))] := by decide
  have h2 : okTexts [(str ("system"), str ("A"))] := by decide
  refine ⟨by decide, ?_⟩
  rw [(chat_prompt_segmentation (str ("pre")) [(str ("system"), str ("A"))]
    (by decide) h1 h2).1]
  rfl

/-- C8: with a plain custom endpoint the code tests
`endpoint.endswith("http")` rather than the presence of a scheme: an
`https://` endpoint is mangled to `http://https://.../completions`, while a
scheme-less endpoint that happens to end in `http` is left without any
scheme. -/
theorem custom_endpoint_endswith_http :
    get_endpoint_and_headers noEnv (str ("sk")) (str ("text-davinci-003"))
        ⟨some (str ("https://myhost")), none⟩
      = .ok (str ("http://https://myhost/completions"))
          [(str ("Content-Type"), str ("application/json"))] ∧
    get_endpoint_and_headers noEnv (str ("sk")) (str ("text-davinci-003"))
        ⟨some (str ("myhost-http")), none⟩
      = .ok (str ("myhost-http/completions"))
          [(str ("Content-Type"), str ("application/json"))] := by
  exact ⟨by decide, by decide⟩

/-- C9 counterexample: `"x-gpt-4"` contains `gpt-4` but starts with neither
chat-model prefix, yet it is routed to the chat-completions endpoint. -/
theorem contains_gpt4_routes_chat :
    isChatModel (str ("x-gpt-4")) = true ∧
    pyStartsWith (str ("gpt-3.5-turbo")) (str ("x-gpt-4")) = false ∧
    pyStartsWith (str ("gpt-4")) (str ("x-gpt-4")) = false ∧
    get_endpoint_and_headers noEnv (str ("sk")) (str ("x-gpt-4")) ⟨none, none⟩
      = .ok chatCompletionsURL
          [(str ("Authorization"), str ("Bearer sk")),
           (str ("Content-Type"), str ("application/json"))] := by
  refine ⟨by decide, by decide, by decide, by decide⟩

/-- C9 amended: with no endpoint override and a non-Azure ambient API type,
requests go to the chat-completions endpoint iff the model starts with
`gpt-3.5-turbo` or *contains* `gpt-4` (the `isChatModel` condition shared
with `complete`'s routing), to the completions endpoint otherwise, with a
bearer-token header in both cases. -/
theorem standard_api_routing (getenv : List Char → Option (List Char))
    (secret model : List Char)
    (hty : ¬ (getenv (str ("OPENAI_API_TYPE"))).getD (str ("openai"))
        = str ("azure")) :
    get_endpoint_and_headers getenv secret model ⟨none, none⟩
      = .ok (if isChatModel model then chatCompletionsURL else completionsURL)
          [(str ("Authorization"), str ("Bearer ") ++ secret),
           (str ("Content-Type"), str ("application/json"))] := by
  have hz : get_azure_config getenv model ⟨none, none⟩ = none := by
    unfold get_azure_config
    simp only [if_neg hty]
  unfold get_endpoint_and_headers
  rw [hz]

/-- Witness for C9 at a concrete chat model and empty environment. -/
theorem standard_api_routing_witness :
    (¬ (noEnv (str ("OPENAI_API_TYPE"))).getD (str ("openai"))
        = str ("azure")) ∧
    get_endpoint_and_headers noEnv (str ("sk2"))
        (str ("gpt-3.5-turbo-0301")) ⟨none, none⟩
      = .ok chatCompletionsURL
          [(str ("Authorization"), str ("Bearer sk2")),
           (str ("Content-Type"), str ("application/json"))] := by
  refine ⟨by decide, ?_⟩
  rw [standard_api_routing noEnv (str ("sk2")) (str ("gpt-3.5-turbo-0301"))
    (by decide)]
  decide

/-- C10: with `max_tokens = 0` the completion path reserves `0` units and
still issues the HTTP request, while the chat path returns after the
optional echo event with neither a capacity acquire nor a request. -/
theorem completion_zero_budget (numPrompts : Nat) (echo : Bool) :
    completion_api_plan numPrompts 0
        = [.acquire 0, .httpPost, .release 0] ∧
    Act.httpPost ∈ completion_api_plan numPrompts 0 ∧
    chat_api_plan numPrompts 0 echo = (if echo then [.yieldEcho] else []) ∧
    Act.httpPost ∉ chat_api_plan numPrompts 0 echo ∧
    Act.acquire 0 ∉ chat_api_plan numPrompts 0 echo := by
  refine ⟨?_, ?_, ?_, ?_, ?_⟩ <;> cases echo <;>
    simp [completion_api_plan, chat_api_plan, Nat.mul_zero]

end OpenAIApi
